import Mathlib

/-!
Verification of the zanix auth core against its specification.

The development shallowly embeds the TypeScript sources:
  * `utils/scope.ts` (scope validation),
  * `utils/jwt/create.ts` / `utils/jwt/verify.ts` (JWT codec),
  * `utils/jwt/keys-rotation.ts` / `utils/jwt/secrets.ts` (key registry),
  * `utils/otp.ts` (OTP engine),
  * `utils/sessions/rate-limit.ts` and `utils/lua.ts` (rate limiter,
    local branch and Redis Lua script),
  * `utils/sessions/headers.ts` (session header formatter),
  * `modules/middlewares/jwt-validation.guard.ts` (auth guard, as an
    event trace of its operations).

JavaScript `Set` values are modelled as insertion-ordered lists,
machine integers as `Nat`/`Int`, `undefined`-able values as `Option`,
and thrown errors as `Except`.
-/

namespace ZanixAuth

/-- Truthiness of a JavaScript string-or-undefined value: `undefined`
and the empty string are falsy. -/
def truthyStr (o : Option String) : Bool :=
  match o with
  | none => false
  | some s => s ≠ ""

/-- Truthiness of a JavaScript number-or-undefined value: `undefined`
and `0` are falsy. -/
def truthyNat (o : Option Nat) : Bool :=
  match o with
  | none => false
  | some n => n ≠ 0

/-! ### Scope validator (`utils/scope.ts`, `scopeValidation`) -/

/-- Model of `[...set].join(', ')`. -/
def joinScopes (xs : List String) : String := String.intercalate ", " xs

/-- Model of the JavaScript `Set.prototype.union`: the elements of the
receiver in order, followed by the elements of the argument that are
not already present. -/
def jsUnion (as bs : List String) : List String :=
  as ++ bs.filter (fun b => !as.contains b)

/-- Embedding of `scopeValidation(baseScopes, userScopes?)` from
`utils/scope.ts`.  JS `Set`s are insertion-ordered lists; the optional
`userScopes` argument is an `Option`. -/
def scopeValidation (baseScopes : List String) (userScopes : Option (List String)) :
    String :=
  if baseScopes.length = 0 then "OK"
  else if (userScopes.getD []).length = 0 then
    "Insufficient permissions. Requires any of [" ++ joinScopes baseScopes ++ "]."
  else
    let user := userScopes.getD []
    if user.contains "*" then "OK"
    else
      let allScopesSize := user.length + baseScopes.length
      let allUniqueScopes := jsUnion baseScopes user
      if allUniqueScopes.length ≠ allScopesSize then "OK"
      else
        "Insufficient permissions. Requires any of [" ++ joinScopes baseScopes ++
          "], but received [" ++ joinScopes user ++ "]."

theorem jsUnion_length (as bs : List String) :
    (jsUnion as bs).length = as.length + (bs.filter (fun b => !as.contains b)).length := by
  simp [jsUnion]

theorem filter_length_eq_iff {p : String → Bool} {l : List String} :
    (l.filter p).length = l.length ↔ ∀ a ∈ l, p a := by
  constructor
  · intro h a ha
    by_contra hpa
    have hlt : (l.filter p).length < l.length := by
      apply List.length_filter_lt_length_iff_exists.mpr
      exact ⟨a, ha, by simpa using hpa⟩
    omega
  · intro h
    rw [List.filter_eq_self.mpr h]

theorem jsUnion_length_ne_iff (as bs : List String) :
    (jsUnion as bs).length ≠ bs.length + as.length ↔ ∃ x, x ∈ bs ∧ x ∈ as := by
  rw [jsUnion_length]
  constructor
  · intro h
    have hne : (bs.filter (fun b => !as.contains b)).length ≠ bs.length := by omega
    have := (not_iff_not.mpr (filter_length_eq_iff
      (p := fun b => !as.contains b) (l := bs))).mp hne
    push_neg at this
    obtain ⟨x, hx, hpx⟩ := this
    refine ⟨x, hx, ?_⟩
    simp at hpx
    simpa using hpx
  · intro ⟨x, hxb, hxa⟩ h
    have hlen : (bs.filter (fun b => !as.contains b)).length = bs.length := by omega
    have := filter_length_eq_iff.mp hlen x hxb
    simp at this
    exact this hxa

theorem scopeValidation_not_ok_msg (required held : List String)
    (h : scopeValidation required (some held) ≠ "OK") :
    ∃ rest, scopeValidation required (some held) = "Insufficient permissions" ++ rest := by
  have hsplit : ("Insufficient permissions. Requires any of [" : String) =
      "Insufficient permissions" ++ ". Requires any of [" := by decide
  unfold scopeValidation at h ⊢
  dsimp only at h ⊢
  split_ifs at h ⊢
  · exact absurd rfl h
  · refine ⟨". Requires any of [" ++ (joinScopes required ++ "]."), ?_⟩
    rw [hsplit, String.append_assoc, String.append_assoc]
  · exact absurd rfl h
  · exact absurd rfl h
  · refine ⟨". Requires any of [" ++ (joinScopes required ++ ("], but received [" ++
      (joinScopes held ++ "]."))), ?_⟩
    rw [hsplit, String.append_assoc, String.append_assoc, String.append_assoc,
      String.append_assoc]
    rfl

theorem append_ne_ok (a b : String) (ha : 3 ≤ a.length) : a ++ b ≠ "OK" := by
  intro h
  have hlen := congrArg String.length h
  rw [String.length_append] at hlen
  have hok : ("OK" : String).length = 2 := by decide
  rw [hok] at hlen
  omega

theorem scopeValidation_ok_characterization (required held : List String) :
    scopeValidation required (some held) = "OK" ↔
      required = [] ∨ "*" ∈ held ∨ ∃ x, x ∈ required ∧ x ∈ held := by
  have h43 : ("Insufficient permissions. Requires any of [" : String).length = 43 := by
    decide
  unfold scopeValidation
  dsimp only
  split_ifs with h1 h2 h3 h4
  · simp [List.length_eq_zero.mp h1]
  · have hheld : held = [] := List.length_eq_zero.mp (by simpa using h2)
    constructor
    · intro h
      exact absurd h (append_ne_ok _ _ (by rw [String.length_append, h43] ; omega))
    · rintro (hreq | hstar | ⟨x, _, hxh⟩)
      · exact absurd (by simp [hreq] : required.length = 0) h1
      · rw [hheld] at hstar ; exact absurd hstar (List.not_mem_nil _)
      · rw [hheld] at hxh ; exact absurd hxh (List.not_mem_nil _)
  · have hstar : "*" ∈ held := by simpa using h3
    simp [hstar]
  · have hov : ∃ x, x ∈ held ∧ x ∈ required :=
      (jsUnion_length_ne_iff required held).mp (by simpa using h4)
    obtain ⟨x, hxh, hxr⟩ := hov
    constructor
    · intro _ ; exact Or.inr (Or.inr ⟨x, hxr, hxh⟩)
    · intro _ ; rfl
  · constructor
    · intro h
      refine absurd h (append_ne_ok _ _ ?_)
      rw [String.length_append, String.length_append, String.length_append, h43]
      omega
    · rintro (hreq | hstar | ⟨x, hxr, hxh⟩)
      · exact absurd (by simp [hreq] : required.length = 0) h1
      · exact absurd (by simpa using hstar) h3
      · have : (jsUnion required held).length ≠ held.length + required.length :=
          (jsUnion_length_ne_iff required held).mpr ⟨x, hxh, hxr⟩
        exact absurd (by simpa using this) h4

/-- C2: `scopeValidation(required, held)` returns `"OK"` if and only if
`required` is empty, or `held` contains the wildcard `"*"`, or `required`
and `held` intersect; in every other case it returns an
`"Insufficient permissions"` reason string. -/
theorem scopeValidation_spec (required held : List String) :
    (scopeValidation required (some held) = "OK" ↔
      required = [] ∨ "*" ∈ held ∨ ∃ x, x ∈ required ∧ x ∈ held) ∧
    (scopeValidation required (some held) ≠ "OK" →
      ∃ rest, scopeValidation required (some held) = "Insufficient permissions" ++ rest) :=
  ⟨scopeValidation_ok_characterization required held,
    scopeValidation_not_ok_msg required held⟩

/-- Witness: at `required = ["read"]`, `held = ["write"]` the validation
is not OK and the message starts with "Insufficient permissions". -/
theorem scopeValidation_spec_witness :
    ¬(scopeValidation ["read"] (some ["write"]) = "OK" ↔
      (["read"] : List String) = [] ∨ "*" ∈ (["write"] : List String) ∨
        ∃ x, x ∈ (["read"] : List String) ∧ x ∈ (["write"] : List String)) ∨
    ∃ rest, scopeValidation ["read"] (some ["write"]) = "Insufficient permissions" ++ rest :=
  Or.inr ((scopeValidation_spec ["read"] ["write"]).2 (by decide))

/-! ### TTL parsing (external helper, modelled) -/

/-- TTL input value of the external helper: a bare number of seconds or
a human-readable string. -/
inductive TTLVal
  | num (n : Int)
  | str (s : String)
  deriving DecidableEq, Repr

/-- JS truthiness of a `number | string` TTL value. -/
def truthyTTL : TTLVal → Bool
  | .num n => n ≠ 0
  | .str s => s ≠ ""

/-- Seconds per TTL unit suffix. -/
def ttlUnitSeconds (u : String) : Option Int :=
  if u = "s" then some 1
  else if u = "m" then some 60
  else if u = "h" then some 3600
  else if u = "d" then some 86400
  else if u = "w" then some 604800
  else if u = "mo" then some 2592000
  else if u = "y" then some 31536000
  else none

/-- Decimal value of a digit string. -/
def digitsToNat (cs : List Char) : Nat :=
  cs.foldl (fun acc c => acc * 10 + (c.toNat - 48)) 0

/-- Modelled from the spec: `parseTTL` from the external `@zanix/helpers`
library is not part of this repository.  Per the spec it converts a TTL
given as seconds or as a string such as `"30d"` or `"12h"` into seconds
(`"30d"` is 30 days; the repository's tests pin `parseTTL('1y') =
31536000`). -/
def parseTTLString (s : String) : Int :=
  let cs := s.toList
  let digits := cs.takeWhile Char.isDigit
  let unit := String.mk (cs.dropWhile Char.isDigit)
  if digits = [] then 0
  else ((ttlUnitSeconds unit).getD 0) * (digitsToNat digits : Int)

/-- Modelled from the spec: numeric TTLs pass through unchanged, string
TTLs are parsed by unit suffix. -/
def parseTTL : TTLVal → Int
  | .num n => n
  | .str s => parseTTLString s

/-- Model of `isNumberString` from the external `@zanix/validator`: a
non-empty all-digit string. -/
def isNumberString (s : String) : Bool :=
  s ≠ "" && s.toList.all Char.isDigit

/-! ### JWT codec (`utils/jwt/create.ts`, `utils/jwt/verify.ts`) -/

/-- JWT signing algorithms supported by the codec
(`JWT_ALGTHM` keys in `utils/constants.ts`). -/
inductive JWTAlg
  | HS256 | HS384 | HS512 | RS256 | RS384 | RS512
  deriving DecidableEq, Repr

/-- Algorithm family. -/
inductive AlgKind
  | HMAC | RSA
  deriving DecidableEq, Repr

/-- Embedding of the `JWT_ALGTHM` table from `utils/constants.ts`. -/
def JWT_ALGTHM : JWTAlg → AlgKind × String
  | .HS256 => (.HMAC, "SHA-256")
  | .HS384 => (.HMAC, "SHA-384")
  | .HS512 => (.HMAC, "SHA-512")
  | .RS256 => (.RSA, "SHA-256")
  | .RS384 => (.RSA, "SHA-384")
  | .RS512 => (.RSA, "SHA-512")

/-- The `DEFAULT_JWT_ISSUER` constant from `utils/constants.ts`. -/
def DEFAULT_JWT_ISSUER : String := "zanix-auth"

/-- Audience claim: a JSON string or an array of strings. -/
inductive AudClaim
  | one (s : String)
  | many (ss : List String)
  deriving DecidableEq, Repr

/-- JWT payload with the reserved claims used by the codec plus an open
extension map for the remaining JSON fields. -/
structure JWTPayload where
  jti : Option String := none
  iss : Option String := none
  sub : Option String := none
  aud : Option AudClaim := none
  exp : Option Nat := none
  secureData : Option String := none
  rateLimit : Option Nat := none
  extra : List (String × String) := []
  deriving DecidableEq, Repr

/-- JWT header `{alg, typ, kid?}`. -/
structure JWTHeader where
  alg : JWTAlg
  typ : String
  kid : Option String := none
  deriving DecidableEq, Repr

/-- Abstract cryptography and serialization collaborators of the codec
(`@zanix/helpers`): `Wire` is the type of serialized payloads (base64url
of JSON in the implementation) and `Sig` the type of signatures.
`verifyHMAC` is modelled as recomputing the HMAC signature and
comparing, which is its semantics. -/
structure JWTCrypto (Wire Sig : Type) where
  ser : JWTPayload → Wire
  deser : Wire → Option JWTPayload
  signHMAC : JWTHeader × Wire → String → String → Sig
  signRSA : JWTHeader × Wire → String → String → Sig
  verifyRSA : JWTHeader × Wire → Sig → String → String → Bool
  encryptAES : String → String → String
  decryptAES : String → String → Option String
  generateHash : String → String

/-- Laws the real collaborators satisfy: serialization round-trips,
AES decryption inverts encryption with the same key, and ciphertexts of
non-empty plaintexts are non-empty strings. -/
structure JWTCrypto.Laws {Wire Sig : Type} (C : JWTCrypto Wire Sig) : Prop where
  deser_ser : ∀ p, C.deser (C.ser p) = some p
  decrypt_encrypt : ∀ x k, C.decryptAES (C.encryptAES x k) k = some x
  encrypt_nonempty : ∀ x k, x ≠ "" → C.encryptAES x k ≠ ""

/-- A JWT as the three dot-separated segments (header, payload,
signature); the dot-join/split of the three base64url segments is a
bijection and is kept structural. -/
structure Token (Wire Sig : Type) where
  header : JWTHeader
  payloadW : Wire
  sig : Sig

/-- Errors raised by the codec. -/
inductive JWTErr
  | EXPIRATION_NOT_POSITIVE
  | INVALID_TOKEN_SIGNATURE
  | PAYLOAD_PARSE_FAILURE
  | EXPIRED_TOKEN
  | INVALID_TOKEN_ISSUER
  | INVALID_TOKEN_PERMISSIONS
  | INVALID_TOKEN_SUBJECT
  deriving DecidableEq, Repr

/-- Options of `createJWT`. -/
structure CreateOpts where
  jwtID : Option String := none
  keyID : Option String := none
  expiration : Option TTLVal := none
  encryptionKey : Option String := none
  algorithm : JWTAlg := .HS256

/-- Options of `verifyJWT`. -/
structure VerifyOpts where
  algorithm : JWTAlg := .HS256
  iss : Option String := none
  aud : Option AudClaim := none
  sub : Option String := none
  encryptionKey : Option String := none

/-- JS string coercion of a possibly-undefined `jti` when concatenated
(`(encryptionKey || secret) + payload.jti`). -/
def jtiStr (o : Option String) : String :=
  match o with
  | some s => s
  | none => "undefined"

/-- Model of `payload.iss || DEFAULT_JWT_ISSUER`. -/
def issOrDefault (o : Option String) : String :=
  if truthyStr o then o.getD "" else DEFAULT_JWT_ISSUER

/-- Model of `encryptionKey || secret`. -/
def encKeyOr (encryptionKey : Option String) (secret : String) : String :=
  if truthyStr encryptionKey then encryptionKey.getD "" else secret

/-- Expiration handling of `createJWT` (lines 56-66 of
`utils/jwt/create.ts`): when the `expiration` option is truthy, parse it
and reject non-positive TTLs, else add `exp = now + ttl`. -/
def withExp (payload : JWTPayload) (expiration : Option TTLVal) (now : Nat) :
    Except JWTErr JWTPayload :=
  match expiration with
  | none => .ok payload
  | some ttl =>
    if truthyTTL ttl then
      let e := parseTTL ttl
      if e ≤ 0 then .error .EXPIRATION_NOT_POSITIVE
      else .ok { payload with exp := some (now + e.toNat) }
    else .ok payload

/-- The `secureData` encryption step of `createJWT` (lines 81-98): RSA
without an explicit encryption key drops the field (with a warning),
otherwise the field is replaced by its AES ciphertext under
`hash((encryptionKey || secret) + jti)`. -/
def encryptSecureData {Wire Sig : Type} (C : JWTCrypto Wire Sig)
    (payload : JWTPayload) (isRSA : Bool) (encryptionKey : Option String)
    (secret : String) : JWTPayload :=
  if truthyStr payload.secureData then
    if isRSA && !truthyStr encryptionKey then { payload with secureData := none }
    else
      let secretToEncrypt :=
        C.generateHash (encKeyOr encryptionKey secret ++ jtiStr payload.jti)
      { payload with
        secureData := some (C.encryptAES (payload.secureData.getD "") secretToEncrypt) }
  else payload

/-- Embedding of `createJWT` from `utils/jwt/create.ts`.  `now` is
`Math.floor(Date.now() / 1000)` and `uuid` the value `generateUUID()`
would produce for this call. -/
def createJWT {Wire Sig : Type} (C : JWTCrypto Wire Sig) (payload : JWTPayload)
    (secret : String) (opts : CreateOpts) (now : Nat) (uuid : String) :
    Except JWTErr (Token Wire Sig) := do
  let p1 ← withExp payload opts.expiration now
  let header : JWTHeader := { alg := opts.algorithm, typ := "JWT", kid := opts.keyID }
  let p2 := { p1 with jti := some (match opts.jwtID with
    | some j => if j ≠ "" then j else uuid
    | none => uuid) }
  let p3 := { p2 with iss := some (issOrDefault p2.iss) }
  let isRSA := (JWT_ALGTHM opts.algorithm).1 = AlgKind.RSA
  let hash := (JWT_ALGTHM opts.algorithm).2
  let p4 := encryptSecureData C p3 isRSA opts.encryptionKey secret
  let w := C.ser p4
  let sig := if isRSA then C.signRSA (header, w) secret hash
    else C.signHMAC (header, w) secret hash
  return { header := header, payloadW := w, sig := sig }

/-- JS truthiness of an optional `string | string[]` audience value: an
empty string is falsy, an array (even empty) is truthy. -/
def truthyAud : Option AudClaim → Bool
  | none => false
  | some (.one s) => s ≠ ""
  | some (.many _) => true

/-- Model of building a JS Set from the list behind `xs`. -/
def jsSet (xs : List String) : List String :=
  xs.foldl (fun acc x => if x ∈ acc then acc else acc ++ [x]) []

/-- Model of `typeof aud === 'string' ? new Set([aud]) : new Set(aud)`;
`new Set(undefined)` is the empty set. -/
def audSet : Option AudClaim → List String
  | none => []
  | some (.one s) => jsSet [s]
  | some (.many ss) => jsSet ss

/-- The `secureData` decryption step of `verifyJWT` (lines 65-84): for
RSA without an encryption key only warn; otherwise attempt decryption
with the same derived key as issuance and on failure keep the
ciphertext. -/
def decryptSecureData {Wire Sig : Type} (C : JWTCrypto Wire Sig)
    (payload : JWTPayload) (isRSA : Bool) (encryptionKey : Option String)
    (secret : String) : JWTPayload :=
  if truthyStr payload.secureData then
    if isRSA && !truthyStr encryptionKey then payload
    else
      let secretToDecrypt :=
        C.generateHash (encKeyOr encryptionKey secret ++ jtiStr payload.jti)
      match C.decryptAES (payload.secureData.getD "") secretToDecrypt with
      | some d => { payload with secureData := some d }
      | none => payload
  else payload

/-- Embedding of `verifyJWT` from `utils/jwt/verify.ts`. -/
def verifyJWT {Wire Sig : Type} [DecidableEq Sig] (C : JWTCrypto Wire Sig)
    (tok : Token Wire Sig) (secret : String) (opts : VerifyOpts) (now : Nat) :
    Except JWTErr JWTPayload := do
  let issExpected := opts.iss.getD DEFAULT_JWT_ISSUER
  let isRSA := (JWT_ALGTHM opts.algorithm).1 = AlgKind.RSA
  let hash := (JWT_ALGTHM opts.algorithm).2
  let isSignatureValid :=
    if isRSA then C.verifyRSA (tok.header, tok.payloadW) tok.sig secret hash
    else tok.sig = C.signHMAC (tok.header, tok.payloadW) secret hash
  if !isSignatureValid then throw .INVALID_TOKEN_SIGNATURE
  let payload ← match C.deser tok.payloadW with
    | none => Except.error .PAYLOAD_PARSE_FAILURE
    | some p => Except.ok p
  let payload := decryptSecureData C payload isRSA opts.encryptionKey secret
  if truthyNat payload.exp && decide (now > payload.exp.getD 0) then
    throw .EXPIRED_TOKEN
  if truthyStr payload.iss && decide (payload.iss.getD "" ≠ issExpected) then
    throw .INVALID_TOKEN_ISSUER
  if truthyAud opts.aud then
    let uniqueAud := audSet opts.aud
    let uniqueUserAud := audSet payload.aud
    if scopeValidation uniqueAud (some uniqueUserAud) ≠ "OK" then
      throw .INVALID_TOKEN_PERMISSIONS
  if truthyStr opts.sub && decide (payload.sub ≠ some (opts.sub.getD "")) then
    throw .INVALID_TOKEN_SUBJECT
  return payload

/-- Signature type of the transparent collaborator model: the signed
data together with the key and hash, so distinct inputs have distinct
signatures. -/
abbrev TrivSig := JWTHeader × JWTPayload × String × String

/-- Transparent instantiation of the collaborators, used to evaluate
the codec on concrete inputs: serialization is the identity and a
signature records exactly what was signed and with which key. -/
def trivCrypto : JWTCrypto JWTPayload TrivSig where
  ser := id
  deser := some
  signHMAC := fun data secret hash => (data.1, data.2, secret, hash)
  signRSA := fun data secret hash => (data.1, data.2, secret, hash)
  verifyRSA := fun _ _ _ _ => false
  encryptAES := fun x _ => x
  decryptAES := fun y _ => some y
  generateHash := fun s => s

theorem trivCrypto_laws : trivCrypto.Laws :=
  ⟨fun _ => rfl, fun _ _ => rfl, fun _ _ h => h⟩

theorem withExp_fields {payload p1 : JWTPayload} {e : Option TTLVal} {now : Nat}
    (h : withExp payload e now = .ok p1) :
    p1.jti = payload.jti ∧ p1.iss = payload.iss ∧ p1.sub = payload.sub ∧
    p1.aud = payload.aud ∧ p1.secureData = payload.secureData ∧
    p1.rateLimit = payload.rateLimit ∧ p1.extra = payload.extra := by
  cases e with
  | none => simp [withExp] at h ; subst h ; exact ⟨rfl, rfl, rfl, rfl, rfl, rfl, rfl⟩
  | some ttl =>
    simp only [withExp] at h
    split_ifs at h with h1 h2
    all_goals (simp only [Except.ok.injEq] at h ; subst h)
    · exact ⟨rfl, rfl, rfl, rfl, rfl, rfl, rfl⟩
    · exact ⟨rfl, rfl, rfl, rfl, rfl, rfl, rfl⟩

theorem withExp_exp_ok {payload p1 : JWTPayload} {e : Option TTLVal} {now : Nat}
    (h : withExp payload e now = .ok p1)
    (hexp : ∀ x, payload.exp = some x → x = 0 ∨ now ≤ x) :
    ∀ x, p1.exp = some x → x = 0 ∨ now ≤ x := by
  cases e with
  | none => simp [withExp] at h ; subst h ; exact hexp
  | some ttl =>
    simp only [withExp] at h
    split_ifs at h with h1 h2
    all_goals (simp only [Except.ok.injEq] at h ; subst h)
    · intro x hx
      simp at hx
      omega
    · exact hexp

theorem decryptSecureData_encryptSecureData {Wire Sig : Type}
    (C : JWTCrypto Wire Sig) (L : C.Laws) (p : JWTPayload)
    (ek : Option String) (secret : String) :
    decryptSecureData C (encryptSecureData C p false ek secret) false ek secret = p := by
  obtain ⟨jti, iss, sub, aud, exp, sd, rl, ex⟩ := p
  cases sd with
  | none =>
    simp [encryptSecureData, decryptSecureData, truthyStr]
  | some s =>
    by_cases hs : s = ""
    · subst hs
      simp [encryptSecureData, decryptSecureData, truthyStr]
    · have hne := L.encrypt_nonempty s (C.generateHash (encKeyOr ek secret ++ jtiStr jti)) hs
      simp [encryptSecureData, decryptSecureData, truthyStr, hs, hne, L.decrypt_encrypt]

theorem issOrDefault_of_default {o : Option String}
    (h : truthyStr o = true → o = some DEFAULT_JWT_ISSUER) :
    issOrDefault o = DEFAULT_JWT_ISSUER := by
  unfold issOrDefault
  by_cases ht : truthyStr o = true
  · rw [if_pos ht, h ht] ; rfl
  · rw [if_neg ht]

theorem createJWT_verifyJWT_roundtrip {Wire Sig : Type} [DecidableEq Sig]
    (C : JWTCrypto Wire Sig) (L : C.Laws) (payload : JWTPayload)
    (secret : String) (opts : CreateOpts) (now : Nat) (uuid : String)
    (tok : Token Wire Sig)
    (halg : opts.algorithm = .HS256)
    (henc : opts.encryptionKey = none)
    (hiss : truthyStr payload.iss = true → payload.iss = some DEFAULT_JWT_ISSUER)
    (hexp : ∀ x, payload.exp = some x → x = 0 ∨ now ≤ x)
    (hok : createJWT C payload secret opts now uuid = .ok tok) :
    ∃ q, verifyJWT C tok secret {} now = Except.ok q ∧
      q.sub = payload.sub ∧ q.aud = payload.aud ∧
      q.secureData = payload.secureData ∧ q.rateLimit = payload.rateLimit ∧
      q.extra = payload.extra ∧ (∃ j, q.jti = some j) ∧
      q.iss = some DEFAULT_JWT_ISSUER := by
  cases hw : withExp payload opts.expiration now with
  | error err => rw [createJWT, hw] at hok ; cases hok
  | ok p1 =>
    obtain ⟨hjti, hiss1, hsub, haud, hsd, hrl, hex⟩ := withExp_fields hw
    have hexp1 := withExp_exp_ok hw hexp
    have hnot : ¬((JWT_ALGTHM JWTAlg.HS256).1 = AlgKind.RSA) := by decide
    set jv : String := (match opts.jwtID with
      | some j => if j ≠ "" then j else uuid
      | none => uuid) with hjv
    set p2 : JWTPayload := { p1 with jti := some jv } with hp2
    set p3 : JWTPayload := { p2 with iss := some (issOrDefault p2.iss) } with hp3
    set p4 : JWTPayload := encryptSecureData C p3 false none secret with hp4
    have hcreate : createJWT C payload secret opts now uuid =
        .ok { header := { alg := JWTAlg.HS256, typ := "JWT", kid := opts.keyID },
              payloadW := C.ser p4,
              sig := C.signHMAC
                ({ alg := JWTAlg.HS256, typ := "JWT", kid := opts.keyID }, C.ser p4)
                secret "SHA-256" } := by
      rw [createJWT, hw, halg, henc]
      rfl
    rw [hcreate] at hok
    simp only [Except.ok.injEq] at hok
    subst hok
    refine ⟨p3, ?_, ?_⟩
    · have hdecf : decide ((JWT_ALGTHM JWTAlg.HS256).1 = AlgKind.RSA) = false := by decide
      have hhash : (JWT_ALGTHM JWTAlg.HS256).2 = "SHA-256" := rfl
      have hexpcheck : (truthyNat p3.exp && decide (now > p3.exp.getD 0)) = false := by
        have hp3exp : p3.exp = p1.exp := rfl
        rw [hp3exp]
        cases hx : p1.exp with
        | none => simp [truthyNat]
        | some x =>
          rcases hexp1 x hx with h0 | hle
          · subst h0 ; simp [truthyNat]
          · simp [truthyNat]
            omega
      have hdef : issOrDefault p2.iss = DEFAULT_JWT_ISSUER := by
        have hpi : p2.iss = payload.iss := by rw [hp2] ; simpa using hiss1
        rw [hpi]
        exact issOrDefault_of_default hiss
      have hisscheck :
          (truthyStr p3.iss && decide (p3.iss.getD "" ≠
            (none : Option String).getD DEFAULT_JWT_ISSUER)) = false := by
        have hp3iss : p3.iss = some (issOrDefault p2.iss) := rfl
        rw [hp3iss, hdef]
        simp [truthyStr, DEFAULT_JWT_ISSUER]
      rw [verifyJWT]
      simp only [if_neg hnot]
      simp only [Except.instMonad, Except.bind, Except.pure, L.deser_ser, hdecf, hhash]
      rw [hp4, decryptSecureData_encryptSecureData C L p3 none secret]
      rw [if_neg (by simp)]
      simp only [hexpcheck, hisscheck, truthyAud, truthyStr, Bool.false_and,
        Bool.and_self, if_neg (by simp : ¬(false = true))]
      have hfin : issOrDefault p1.iss = DEFAULT_JWT_ISSUER := by
        rw [hiss1] ; exact issOrDefault_of_default hiss
      simp only [hfin]
      simp [DEFAULT_JWT_ISSUER]
    · have hp3sub : p3.sub = p1.sub := rfl
      have hp3aud : p3.aud = p1.aud := rfl
      have hp3sd : p3.secureData = p1.secureData := rfl
      have hp3rl : p3.rateLimit = p1.rateLimit := rfl
      have hp3ex : p3.extra = p1.extra := rfl
      have hp3jti : p3.jti = some jv := rfl
      have hp3iss : p3.iss = some (issOrDefault p2.iss) := rfl
      refine ⟨hp3sub.trans hsub, hp3aud.trans haud, hp3sd.trans hsd,
        hp3rl.trans hrl, hp3ex.trans hex, ⟨jv, hp3jti⟩, ?_⟩
      rw [hp3iss]
      have : p2.iss = payload.iss := by rw [hp2] ; simpa using hiss1
      rw [this, issOrDefault_of_default hiss]

/-- C1 counterexample: the round-trip claim quantifies over every
payload, but a payload whose `iss` differs from the default issuer is
preserved by `createJWT` and then rejected by `verifyJWT` under default
options with `INVALID_TOKEN_ISSUER`. -/
theorem jwt_roundtrip_counterexample :
    (createJWT trivCrypto { iss := some "other-issuer" } "my-secret" {} 1000 "u1").bind
      (fun t => verifyJWT trivCrypto t "my-secret" {} 1000) =
    Except.error JWTErr.INVALID_TOKEN_ISSUER := by rfl

/-- Concrete payload for the round-trip witness. -/
def rtPayload : JWTPayload :=
  { sub := some "alice", secureData := some "top", rateLimit := some 7 }

/-- Payload of the token produced from `rtPayload` at `now = 1000` with
a 60-second expiration and UUID `"u1"`. -/
def rtIssued : JWTPayload :=
  { jti := some "u1", iss := some "zanix-auth", sub := some "alice", aud := none,
    exp := some 1060, secureData := some "top", rateLimit := some 7, extra := [] }

/-- The token `createJWT` produces from `rtPayload` under the
transparent collaborators. -/
def rtToken : Token JWTPayload TrivSig :=
  { header := { alg := JWTAlg.HS256, typ := "JWT", kid := none },
    payloadW := rtIssued,
    sig := ({ alg := JWTAlg.HS256, typ := "JWT", kid := none }, rtIssued, "k", "SHA-256") }

/-- C1: amended round-trip.  For payloads whose `iss` claim, when
present and non-empty, equals the default issuer, and whose own `exp`
claim, when present and non-zero, has not already passed, verifying the
created token with the same secret and default options succeeds and
returns the payload up to the added `jti`, `iss` and `exp` claims;
in particular `secureData` decrypts back to its original value.  Stated
for any collaborators satisfying the serialization/AES laws. -/
theorem jwt_roundtrip_amended {Wire Sig : Type} [DecidableEq Sig]
    (C : JWTCrypto Wire Sig) (L : C.Laws) (payload : JWTPayload)
    (secret : String) (opts : CreateOpts) (now : Nat) (uuid : String)
    (tok : Token Wire Sig)
    (halg : opts.algorithm = .HS256)
    (henc : opts.encryptionKey = none)
    (hiss : truthyStr payload.iss = true → payload.iss = some DEFAULT_JWT_ISSUER)
    (hexp : ∀ x, payload.exp = some x → x = 0 ∨ now ≤ x)
    (hok : createJWT C payload secret opts now uuid = .ok tok) :
    ∃ q, verifyJWT C tok secret {} now = Except.ok q ∧
      q.sub = payload.sub ∧ q.aud = payload.aud ∧
      q.secureData = payload.secureData ∧ q.rateLimit = payload.rateLimit ∧
      q.extra = payload.extra ∧ (∃ j, q.jti = some j) ∧
      q.iss = some DEFAULT_JWT_ISSUER :=
  createJWT_verifyJWT_roundtrip C L payload secret opts now uuid tok
    halg henc hiss hexp hok

/-- Witness for the amended round-trip at a concrete payload carrying
`sub`, `secureData` and `rateLimit`, with a requested 60-second
expiration. -/
theorem jwt_roundtrip_amended_witness :
    ∃ q, verifyJWT trivCrypto rtToken "k" {} 1000 = Except.ok q ∧
      q.sub = rtPayload.sub ∧ q.aud = rtPayload.aud ∧
      q.secureData = rtPayload.secureData ∧ q.rateLimit = rtPayload.rateLimit ∧
      q.extra = rtPayload.extra ∧ (∃ j, q.jti = some j) ∧
      q.iss = some DEFAULT_JWT_ISSUER :=
  jwt_roundtrip_amended trivCrypto trivCrypto_laws rtPayload "k"
    { expiration := some (.num 60) } 1000 "u1" rtToken rfl rfl
    (by decide) (fun _ hx => Option.noConfusion hx) rfl

theorem decryptSecureData_iss {Wire Sig : Type} (C : JWTCrypto Wire Sig)
    (p : JWTPayload) (isRSA : Bool) (ek : Option String) (secret : String) :
    (decryptSecureData C p isRSA ek secret).iss = p.iss := by
  unfold decryptSecureData
  split_ifs
  · rfl
  · dsimp only
    cases C.decryptAES (p.secureData.getD "")
      (C.generateHash (encKeyOr ek secret ++ jtiStr p.jti)) <;> rfl
  · rfl

/-- C10: `verifyJWT` performs the issuer comparison only when the
decoded payload carries a truthy `iss` claim: for every secret,
option set (hence every expected issuer) and time, a token whose
payload deserializes with an absent or empty-string `iss` never fails
with `INVALID_TOKEN_ISSUER`. -/
theorem verifyJWT_no_iss_skips_issuer_check {Wire Sig : Type} [DecidableEq Sig]
    (C : JWTCrypto Wire Sig) (tok : Token Wire Sig) (secret : String)
    (opts : VerifyOpts) (now : Nat)
    (h : ∀ p, C.deser tok.payloadW = some p → truthyStr p.iss = false) :
    verifyJWT C tok secret opts now ≠ Except.error JWTErr.INVALID_TOKEN_ISSUER := by
  intro hcontra
  rw [verifyJWT] at hcontra
  simp only [Except.instMonad, Except.bind, Except.pure] at hcontra
  cases hd : C.deser tok.payloadW with
  | none =>
    rw [hd] at hcontra
    repeat' split at hcontra
    all_goals first
      | exact JWTErr.noConfusion (Except.error.inj hcontra)
      | exact Except.noConfusion hcontra
      | simp_all
  | some p =>
    rw [hd] at hcontra
    dsimp only at hcontra
    have hiss2 : truthyStr (decryptSecureData C p
        (decide ((JWT_ALGTHM opts.algorithm).1 = AlgKind.RSA))
        opts.encryptionKey secret).iss = false := by
      rw [decryptSecureData_iss] ; exact h p hd
    rw [hiss2] at hcontra
    simp only [Bool.false_and, if_neg (by simp : ¬(false = true))] at hcontra
    repeat' split at hcontra
    all_goals first
      | exact JWTErr.noConfusion (Except.error.inj hcontra)
      | exact Except.noConfusion hcontra

/-- Witness for C10: a concrete unsigned-issuer token passes through
the issuer validation step (here the whole verification succeeds). -/
theorem verifyJWT_no_iss_witness :
    verifyJWT trivCrypto
      { header := { alg := JWTAlg.HS256, typ := "JWT", kid := none },
        payloadW := ({ iss := some "" } : JWTPayload),
        sig := ({ alg := JWTAlg.HS256, typ := "JWT", kid := none },
          ({ iss := some "" } : JWTPayload), "k", "SHA-256") }
      "k" { iss := some "expected-one" } 1000 ≠
    Except.error JWTErr.INVALID_TOKEN_ISSUER :=
  verifyJWT_no_iss_skips_issuer_check trivCrypto _ "k" { iss := some "expected-one" } 1000
    (by intro p hp ; simp only [trivCrypto] at hp ; cases hp ; rfl)

/-! ### Environment and key registry (`utils/jwt/keys-rotation.ts`,
`utils/jwt/secrets.ts`, issuance-side `getSecret` of
`utils/sessions/create.ts`) -/

/-- Process environment: a finite list of variable bindings. -/
def Env := List (String × String)

/-- Model of `Deno.env.get`: first binding wins. -/
def envGet (env : Env) (k : String) : Option String :=
  (List.find? (fun kv => kv.1 = k) env).map (fun kv => kv.2)

/-- Environment variable name of version `n`, `${prefix}_V${n}`. -/
def verKey (pfx : String) (n : Nat) : String := pfx ++ "_V" ++ toString n

/-- Scan `V(idx+1), V(idx+2), …` while truthy (fuelled form of the
`getVersionedKeys` while-loop).  The loop's `if (!value) break` stops
both at an unset variable and at one set to the empty string, which is
falsy in JS. -/
def scanVersions (env : Env) (pfx : String) : Nat → Nat → Nat
  | 0, idx => idx
  | fuel+1, idx =>
    match envGet env (verKey pfx (idx+1)) with
    | none => idx
    | some v => if v = "" then idx else scanVersions env pfx fuel (idx+1)

/-- Number of contiguous versioned keys `<PFX>_V1, <PFX>_V2, …` found
in the environment.  The source loop stops at the first gap; a finite
environment with `env.length` bindings cannot hold more than
`env.length` distinct present versions, so fuel `env.length + 1` always
reaches the gap first. -/
def countVersions (env : Env) (pfx : String) : Nat :=
  scanVersions env pfx (env.length + 1) 0

/-- Embedding of `getRotationCycle` (keys-rotation.ts lines 46-50):
`JWK_ROTATION_CYCLE` defaulting to `"30d"`, literal `"0"` disabling
rotation, numeric strings converted with `Number`. -/
def getRotationCycle (env : Env) : Int :=
  let cycleStr := match envGet env "JWK_ROTATION_CYCLE" with
    | some s => if s ≠ "" then s else "30d"
    | none => "30d"
  if cycleStr = "0" then 0
  else parseTTL (if isNumberString cycleStr then .num (digitsToNat cycleStr.toList)
    else .str cycleStr)

/-- Embedding of `getActiveVersionIndex` (keys-rotation.ts lines
61-68). -/
def getActiveVersionIndex (cycleSeconds : Int) (total : Nat) (now : Nat) : Nat :=
  if cycleSeconds ≤ 0 ∨ total = 0 then 0
  else (now / cycleSeconds.toNat) % total

/-- Result shape of `getRotatingKey`: `{ value?, version? }`. -/
structure RotatingKey where
  value : Option String
  version : Option String
  deriving DecidableEq, Repr

/-- Embedding of `getRotatingKey` (keys-rotation.ts lines 84-99).
`now` is `Math.floor(Date.now() / 1000)`; the process-lifetime `jwtKeys`
cache only memoizes the environment scan and is dropped. -/
def getRotatingKey (env : Env) (pfx : String) (now : Nat) : RotatingKey :=
  let n := countVersions env pfx
  if n = 0 then { value := envGet env pfx, version := none }
  else
    let cycleSeconds := getRotationCycle env
    let idx := getActiveVersionIndex cycleSeconds n now
    { value := envGet env (verKey pfx (idx+1)), version := some ("V" ++ toString (idx+1)) }

/-- C7: key rotation selection.  With no versioned keys the base key is
returned with `version` undefined; with versioned keys the entry at
index `floor(now / cycle) mod count` is returned; with a non-positive
cycle (literal `"0"`) index 0 is always selected; and the rotation
cycle defaults to 30 days (2592000 seconds). -/
theorem getRotatingKey_spec (env : Env) (pfx : String) (now : Nat) :
    (countVersions env pfx = 0 →
      getRotatingKey env pfx now = { value := envGet env pfx, version := none }) ∧
    (∀ n, countVersions env pfx = n → n ≠ 0 → 0 < getRotationCycle env →
      getRotatingKey env pfx now =
        { value := envGet env (verKey pfx (now / (getRotationCycle env).toNat % n + 1)),
          version := some ("V" ++ toString (now / (getRotationCycle env).toNat % n + 1)) }) ∧
    (countVersions env pfx ≠ 0 → getRotationCycle env ≤ 0 →
      getRotatingKey env pfx now =
        { value := envGet env (verKey pfx 1), version := some "V1" }) ∧
    (envGet env "JWK_ROTATION_CYCLE" = none → getRotationCycle env = 2592000) := by
  refine ⟨?_, ?_, ?_, ?_⟩
  · intro h0
    rw [getRotatingKey]
    simp [h0]
  · intro n hn hne hpos
    rw [getRotatingKey]
    simp only [hn, if_neg hne]
    rw [getActiveVersionIndex, if_neg]
    push_neg
    exact ⟨by omega, hne⟩
  · intro hne hle
    rw [getRotatingKey]
    simp only [if_neg hne]
    rw [getActiveVersionIndex, if_pos (Or.inl hle)]
    rfl
  · intro h0
    rw [getRotationCycle]
    simp only [h0]
    rfl

/-- Environment of the spec's key-rotation scenario: three versioned
HMAC keys and a 10-second cycle. -/
def rotEnv : Env :=
  [("JWT_KEY_V1", "K1"), ("JWT_KEY_V2", "K2"), ("JWT_KEY_V3", "K3"),
   ("JWK_ROTATION_CYCLE", "10")]

/-- Witness for C7: at `now = 10000` with cycle 10 and three versions,
index `1000 mod 3 = 1` selects `V2`. -/
theorem getRotatingKey_spec_witness :
    getRotatingKey rotEnv "JWT_KEY" 10000 =
      { value := some "K2", version := some "V2" } := by
  have hc : getRotationCycle rotEnv = 10 := by rfl
  have h := (getRotatingKey_spec rotEnv "JWT_KEY" 10000).2.1 3 (by decide) (by decide)
    (by rw [hc] ; norm_num)
  rw [h, hc]
  rfl

/-- Header-described error record: HTTP status kind plus cause. -/
structure HttpErrorModel where
  status : String
  cause : String
  deriving DecidableEq, Repr

/-- Session types (`typings/sessions.ts`). -/
inductive SessionType
  | user | api | anonymous
  deriving DecidableEq, Repr

/-- Embedding of `getSecretByToken` from `utils/jwt/secrets.ts`: decode
the token header's `kid`, resolve `JWT_KEY[_kid]` (user) or
`JWK_PUB[_kid]` (api); a missing (or empty, hence falsy) value raises
`INTERNAL_SERVER_ERROR` with the `Missing required JWT key` cause. -/
def getSecretByToken {Wire Sig : Type} (env : Env) (tok : Token Wire Sig)
    (ty : SessionType) : Except HttpErrorModel String :=
  let kid := tok.header.kid
  let keySuffix := match kid with
    | some k => if k ≠ "" then "_" ++ k else ""
    | none => ""
  let keyName := (if ty = SessionType.user then "JWT_KEY" else "JWK_PUB") ++ keySuffix
  match envGet env keyName with
  | some secret =>
    if secret ≠ "" then .ok secret
    else .error
      { status := "INTERNAL_SERVER_ERROR",
        cause := "Missing required JWT key in environment variables: " ++ keyName ++ "." }
  | none => .error
      { status := "INTERNAL_SERVER_ERROR",
        cause := "Missing required JWT key in environment variables: " ++ keyName ++ "." }

/-- JS truthiness of an object value: every object is truthy. -/
def jsTruthyObject {α : Type} (_ : α) : Bool := true

/-- Embedding of the issuance-side `getSecret` from
`utils/sessions/create.ts` lines 23-40: `getRotatingKey` now returns an
object `{ value?, version? }`, and the source's `if (secret) return
secret` truthiness test is performed on that object, which is always
truthy — so the `InternalError` branch is unreachable even when no key
exists in the environment. -/
def getSecret (env : Env) (ty : SessionType) (now : Nat) :
    Except HttpErrorModel RotatingKey :=
  let keyName := if ty = SessionType.api then "JWK_PRI" else "JWT_KEY"
  let secret := getRotatingKey env keyName now
  if jsTruthyObject secret then .ok secret
  else .error
    { status := "INTERNAL_SERVER_ERROR",
      cause := "Missing required JWT key in environment variables: " ++ keyName ++ "." }

/-- Concrete kid-less token used to evaluate `getSecretByToken`. -/
def plainToken : Token JWTPayload TrivSig :=
  { header := { alg := JWTAlg.HS256, typ := "JWT", kid := none },
    payloadW := {},
    sig := ({ alg := JWTAlg.HS256, typ := "JWT", kid := none }, {}, "k", "SHA-256") }

/-- C9: in an empty environment, `getSecretByToken` does raise the
`INTERNAL_SERVER_ERROR` with the `Missing required JWT key` cause as
the claim states, but the issuance-side `getSecret` — whose own
documentation promises an `InternalError` for a missing key — returns
`ok { value := none }` and proceeds, because it truthiness-checks the
always-truthy object returned by `getRotatingKey`. -/
theorem getSecret_missing_key_bug :
    getSecretByToken ([] : Env) plainToken SessionType.user =
      .error
        { status := "INTERNAL_SERVER_ERROR",
          cause := "Missing required JWT key in environment variables: JWT_KEY." } ∧
    getSecret ([] : Env) SessionType.user 0 =
      .ok { value := none, version := none } := by
  constructor
  · rfl
  · rfl

/-! ### OTP engine (`utils/otp.ts`) -/

/-- One cache entry: key, value and absolute expiry time. -/
structure CacheEntry where
  key : String
  value : String
  expireAt : Nat
  deriving DecidableEq, Repr

/-- A cache tier with TTL semantics. -/
def Store := List CacheEntry

/-- Read a key at time `now`; expired entries are misses. -/
def storeGet (st : Store) (k : String) (now : Nat) : Option String :=
  match List.find? (fun e => e.key = k) st with
  | some e => if now < e.expireAt then some e.value else none
  | none => none

/-- Write a key with an absolute expiry time. -/
def storeSet (st : Store) (k v : String) (expireAt : Nat) : Store :=
  { key := k, value := v, expireAt := expireAt } ::
    List.filter (fun e => e.key ≠ k) st

/-- Delete a key. -/
def storeDelete (st : Store) (k : String) : Store :=
  List.filter (fun e => e.key ≠ k) st

/-- State of the cache provider as used by the OTP engine: the local
in-memory tier, the distributed (Redis) tier, and whether `REDIS_URI`
is configured. -/
structure OTPCache where
  localStore : Store
  redisStore : Store
  redisConfigured : Bool

/-- Embedding of `randomCode` (otp.ts lines 14-21): each random byte is
reduced mod 10 and rendered as a digit. -/
def randomCode (bytes : List Nat) : String :=
  String.mk (bytes.map (fun b => Char.ofNat (48 + b % 10)))

/-- The `zanix:otp:<target>` cache key (`CACHE_KEYS.otp`). -/
def otpKey (target : String) : String := "zanix:otp" ++ ":" ++ target

/-- Embedding of `generateOTP` (otp.ts lines 39-54): store the code
under the target's key with TTL `exp` in the Redis tier when
configured, else in the local tier.  `bytes` stands for the
`crypto.getRandomValues` output and `now` for the current time.
`saveToCaches` of the external provider is modelled from the spec as a
write to the distributed store. -/
def generateOTP (cache : OTPCache) (target : String) (exp : Nat)
    (bytes : List Nat) (now : Nat) : String × OTPCache :=
  let code := randomCode bytes
  let key := otpKey target
  if cache.redisConfigured then
    (code, { cache with redisStore := storeSet cache.redisStore key code (now + exp) })
  else
    (code, { cache with localStore := storeSet cache.localStore key code (now + exp) })

/-- Modelled from the spec: `getCachedOrFetch` of the external cache
provider reads through the local tier and falls back to the
distributed store. -/
def getCachedOrFetch (cache : OTPCache) (k : String) (now : Nat) : Option String :=
  match storeGet cache.localStore k now with
  | some v => some v
  | none => storeGet cache.redisStore k now

/-- Embedding of `verifyOTP` (otp.ts lines 71-96): an empty code is
rejected outright; otherwise the stored value is compared and, on
success, the key is deleted (from both tiers when Redis is
configured). -/
def verifyOTP (cache : OTPCache) (target : String) (code : String) (now : Nat) :
    Bool × OTPCache :=
  if code = "" then (false, cache)
  else
    let key := otpKey target
    if cache.redisConfigured then
      let entry := getCachedOrFetch cache key now
      if entry = some code then
        (true, { cache with
          localStore := storeDelete cache.localStore key,
          redisStore := storeDelete cache.redisStore key })
      else (false, cache)
    else
      let entry := storeGet cache.localStore key now
      if entry = some code then
        (true, { cache with localStore := storeDelete cache.localStore key })
      else (false, cache)

theorem randomCode_ne_empty {bytes : List Nat} (h : bytes ≠ []) :
    randomCode bytes ≠ "" := by
  intro hc
  apply h
  have : (bytes.map (fun b => Char.ofNat (48 + b % 10))) = [] := by
    have := congrArg String.data hc
    simpa [randomCode] using this
  simpa using this

theorem storeGet_storeSet_self (st : Store) (k v : String) (e t : Nat) :
    storeGet (storeSet st k v e) k t = if t < e then some v else none := by
  unfold storeGet storeSet
  rw [List.find?_cons_of_pos _ (by simp)]

theorem storeGet_storeDelete_self (st : Store) (k : String) (t : Nat) :
    storeGet (storeDelete st k) k t = none := by
  unfold storeGet storeDelete
  induction st with
  | nil => rfl
  | cons e tl ih =>
    by_cases he : e.key = k
    · simpa [List.filter, he] using ih
    · rw [List.filter_cons_of_pos (by simpa using he),
        List.find?_cons_of_neg _ (by simpa using he)]
      exact ih

/-- C8: OTP single use.  Starting from a cache whose local tier has no
live entry for the target, generating an OTP from at least one random
byte and verifying within the TTL: the empty code is rejected, the
generated code verifies exactly once (the entry is deleted from the
local tier, and from the Redis tier too when configured, so a second
attempt fails), and any non-matching code is rejected without touching
the stored entry. -/
theorem verifyOTP_single_use (st0 : OTPCache) (target : String) (exp : Nat)
    (bytes : List Nat) (now t : Nat)
    (hbytes : bytes ≠ [])
    (ht : t < now + exp)
    (hclean : storeGet st0.localStore (otpKey target) t = none) :
    verifyOTP (generateOTP st0 target exp bytes now).2 target "" t =
      (false, (generateOTP st0 target exp bytes now).2) ∧
    (verifyOTP (generateOTP st0 target exp bytes now).2 target
      (generateOTP st0 target exp bytes now).1 t).1 = true ∧
    storeGet (verifyOTP (generateOTP st0 target exp bytes now).2 target
      (generateOTP st0 target exp bytes now).1 t).2.localStore (otpKey target) t = none ∧
    (st0.redisConfigured = true →
      storeGet (verifyOTP (generateOTP st0 target exp bytes now).2 target
        (generateOTP st0 target exp bytes now).1 t).2.redisStore (otpKey target) t = none) ∧
    verifyOTP (verifyOTP (generateOTP st0 target exp bytes now).2 target
        (generateOTP st0 target exp bytes now).1 t).2 target
        (generateOTP st0 target exp bytes now).1 t =
      (false, (verifyOTP (generateOTP st0 target exp bytes now).2 target
        (generateOTP st0 target exp bytes now).1 t).2) ∧
    (∀ w, w ≠ (generateOTP st0 target exp bytes now).1 → w ≠ "" →
      verifyOTP (generateOTP st0 target exp bytes now).2 target w t =
        (false, (generateOTP st0 target exp bytes now).2)) := by
  have hcode := randomCode_ne_empty hbytes
  cases hr : st0.redisConfigured with
  | true =>
    have hlocal1 : storeGet st0.localStore (otpKey target) t = none := hclean
    have hredis1 : storeGet (storeSet st0.redisStore (otpKey target)
        (randomCode bytes) (now + exp)) (otpKey target) t = some (randomCode bytes) := by
      rw [storeGet_storeSet_self, if_pos ht]
    set st1 : OTPCache := { st0 with redisStore := storeSet st0.redisStore (otpKey target) (randomCode bytes) (now + exp) } with hst1
    have hgen : generateOTP st0 target exp bytes now = (randomCode bytes, st1) := by
      simp [generateOTP, hr, hst1]
    rw [hgen]
    dsimp only
    have hst1r : st1.redisConfigured = true := hr
    have hfetch1 : getCachedOrFetch st1 (otpKey target) t = some (randomCode bytes) := by
      simp [getCachedOrFetch, hst1, hlocal1, hredis1]
    set st2 : OTPCache := { st1 with
      localStore := storeDelete st1.localStore (otpKey target),
      redisStore := storeDelete st1.redisStore (otpKey target) } with hst2
    have hver : verifyOTP st1 target (randomCode bytes) t = (true, st2) := by
      rw [verifyOTP, if_neg hcode]
      dsimp only
      rw [hst1r, if_pos rfl, hfetch1, if_pos rfl]
      simp [hst2, hr]
    rw [hver]
    dsimp only
    have hst2r : st2.redisConfigured = true := hr
    have hfetch2 : getCachedOrFetch st2 (otpKey target) t = none := by
      rw [getCachedOrFetch]
      have h1 : storeGet st2.localStore (otpKey target) t = none :=
        storeGet_storeDelete_self _ _ _
      have h2 : storeGet st2.redisStore (otpKey target) t = none :=
        storeGet_storeDelete_self _ _ _
      rw [h1, h2]
    refine ⟨?_, rfl, ?_, ?_, ?_, ?_⟩
    · simp [verifyOTP]
    · exact storeGet_storeDelete_self _ _ _
    · intro _
      exact storeGet_storeDelete_self _ _ _
    · rw [verifyOTP, if_neg hcode]
      dsimp only
      rw [hst2r, if_pos rfl, hfetch2, if_neg (by simp)]
    · intro w hw hwne
      rw [verifyOTP, if_neg hwne]
      dsimp only
      rw [hst1r, if_pos rfl, hfetch1,
        if_neg (by simp ; exact fun h => hw h.symm)]
  | false =>
    have hlocal1 : storeGet (storeSet st0.localStore (otpKey target)
        (randomCode bytes) (now + exp)) (otpKey target) t = some (randomCode bytes) := by
      rw [storeGet_storeSet_self, if_pos ht]
    set st1 : OTPCache := { st0 with localStore := storeSet st0.localStore (otpKey target) (randomCode bytes) (now + exp) } with hst1
    have hgen : generateOTP st0 target exp bytes now = (randomCode bytes, st1) := by
      simp [generateOTP, hr, hst1]
    rw [hgen]
    dsimp only
    have hst1r : st1.redisConfigured = false := hr
    have hget1 : storeGet st1.localStore (otpKey target) t = some (randomCode bytes) := by
      simpa [hst1] using hlocal1
    set st2 : OTPCache := { st1 with
      localStore := storeDelete st1.localStore (otpKey target) } with hst2
    have hver : verifyOTP st1 target (randomCode bytes) t = (true, st2) := by
      rw [verifyOTP, if_neg hcode]
      dsimp only
      rw [hst1r, if_neg (by simp), hget1, if_pos rfl]
      simp [hst2, hr]
    rw [hver]
    dsimp only
    have hst2r : st2.redisConfigured = false := hr
    have hget2 : storeGet st2.localStore (otpKey target) t = none :=
      storeGet_storeDelete_self _ _ _
    refine ⟨?_, rfl, ?_, ?_, ?_, ?_⟩
    · simp [verifyOTP]
    · exact storeGet_storeDelete_self _ _ _
    · intro hcontra
      cases hcontra
    · rw [verifyOTP, if_neg hcode]
      dsimp only
      rw [hst2r, if_neg (by simp), hget2, if_neg (by simp)]
    · intro w hw hwne
      rw [verifyOTP, if_neg hwne]
      dsimp only
      rw [hst1r, if_neg (by simp), hget1,
        if_neg (by simp ; exact fun h => hw h.symm)]

/-- Witness for C8 at a concrete six-byte OTP in Redis mode. -/
theorem verifyOTP_single_use_witness :
    (verifyOTP (generateOTP ⟨[], [], true⟩ "a@b" 300 [1, 2, 3, 4, 5, 6] 100).2 "a@b"
      (generateOTP ⟨[], [], true⟩ "a@b" 300 [1, 2, 3, 4, 5, 6] 100).1 100).1 = true :=
  (verifyOTP_single_use ⟨[], [], true⟩ "a@b" 300 [1, 2, 3, 4, 5, 6] 100 100
    (by decide) (by decide) (by rfl)).2.1

/-! ### Rate limiter (`utils/sessions/rate-limit.ts` local branch and
the `RATE_LIMIT` Redis Lua script of `utils/lua.ts`) -/

/-- The per-key record `{count, createdAt}`. -/
structure RLEntryVal where
  count : Nat
  createdAt : Nat
  deriving DecidableEq, Repr

/-- Parameters of one `checkRateLimit` call (the source spells the last
one `maxFaildedAttempts`). -/
structure RLParams where
  maxRequests : Nat
  windowSeconds : Nat
  maxFaildedAttempts : Nat
  deriving DecidableEq, Repr

/-- Cache state for one rate-limit key: the primary record and the
companion failed-attempts counter, each with an absolute expiry. -/
structure RLState where
  entry : Option (RLEntryVal × Nat)
  failed : Option (Nat × Nat)
  deriving DecidableEq, Repr

/-- Observable result of one check call.  `failedAttempts = none`
models the JS `undefined` the local branch can resolve with. -/
structure RLResult where
  count : Nat
  createdAt : Nat
  failedAttempts : Option Nat
  canContinue : Bool
  deriving DecidableEq, Repr

/-- Cache operations performed by a check call, recorded in order. -/
inductive RLOp
  | setEntry (v : RLEntryVal) (ttl : Option Nat)
  | setFailed (v : Nat) (ttl : Nat)
  | deleteFailed
  deriving DecidableEq, Repr

/-- TTL-respecting read of the primary record. -/
def liveEntry (st : RLState) (now : Nat) : Option RLEntryVal :=
  match st.entry with
  | some (v, e) => if now < e then some v else none
  | none => none

/-- TTL-respecting read of the failed-attempts counter. -/
def liveFailed (st : RLState) (now : Nat) : Option Nat :=
  match st.failed with
  | some (v, e) => if now < e then some v else none
  | none => none

/-- Embedding of the local (per-key-lock) branch of `checkRateLimit`
(rate-limit.ts lines 128-165).  Returns the resolved result, the cache
state after the call, and the cache operations performed.  The
`withLock`/deferred `setTimeout` write is one atomic step; `KEEPTTL` is
modelled by reusing the record's current expiry. -/
def localCheck (p : RLParams) (st : RLState) (now : Nat) :
    RLResult × RLState × List RLOp :=
  let fresh : RLEntryVal := { count := 1, createdAt := now }
  let (data, st1, ops1) :=
    match liveEntry st now with
    | none => (fresh, { st with entry := some (fresh, now + p.windowSeconds) },
        [RLOp.setEntry fresh (some p.windowSeconds)])
    | some d => (d, st, [])
  let count := data.count
  let createdAt := data.createdAt
  if count > p.maxRequests then
    let failedAttempts := liveFailed st1 now
    let del := match failedAttempts with
      | some f => decide (f ≥ p.maxFaildedAttempts)
      | none => false
    let st2 := if del then { st1 with failed := none } else st1
    ({ count := count, createdAt := createdAt, failedAttempts := failedAttempts,
       canContinue := false }, st2, ops1 ++ if del then [RLOp.deleteFailed] else [])
  else
    let (st2, ops2) :=
      if count = 1 ∧ p.maxFaildedAttempts ≠ 0 then
        let prev := (liveFailed st1 now).getD 0
        let ttl := p.windowSeconds * p.maxFaildedAttempts * 2
        ({ st1 with failed := some (prev + 1, now + ttl) }, [RLOp.setFailed (prev + 1) ttl])
      else (st1, [])
    let e := match st2.entry with | some (_, ex) => ex | none => now + p.windowSeconds
    let newd : RLEntryVal := { count := count + 1, createdAt := createdAt }
    ({ count := count, createdAt := createdAt, failedAttempts := some 0,
       canContinue := true },
      { st2 with entry := some (newd, e) }, ops1 ++ ops2 ++ [RLOp.setEntry newd none])

/-- Embedding of the `RATE_LIMIT` Redis Lua script (`utils/lua.ts`):
a missing record is created as `{count = 0, createdAt = now}` with
`SETEX windowSeconds`; denial uses `count >= maxRequests`; the
failed-attempts counter is written when the read count equals 1; the
success result carries the post-increment count. -/
def luaCheck (p : RLParams) (st : RLState) (now : Nat) :
    RLResult × RLState × List RLOp :=
  let fresh : RLEntryVal := { count := 0, createdAt := now }
  let (data, st1, ops1) :=
    match liveEntry st now with
    | none => (fresh, { st with entry := some (fresh, now + p.windowSeconds) },
        [RLOp.setEntry fresh (some p.windowSeconds)])
    | some d => (d, st, [])
  let count := data.count
  let createdAt := data.createdAt
  if count ≥ p.maxRequests then
    let failedAttempts := (liveFailed st1 now).getD 0
    let del := decide (failedAttempts ≥ p.maxFaildedAttempts)
    let st2 := if del then { st1 with failed := none } else st1
    ({ count := count, createdAt := createdAt, failedAttempts := some failedAttempts,
       canContinue := false }, st2, ops1 ++ if del then [RLOp.deleteFailed] else [])
  else
    let (st2, ops2) :=
      if count = 1 ∧ 0 < p.maxFaildedAttempts then
        let prev := (liveFailed st1 now).getD 0
        let ttl := p.windowSeconds * p.maxFaildedAttempts * 2
        ({ st1 with failed := some (prev + 1, now + ttl) }, [RLOp.setFailed (prev + 1) ttl])
      else (st1, [])
    let e := match st2.entry with | some (_, ex) => ex | none => now + p.windowSeconds
    let newd : RLEntryVal := { count := count + 1, createdAt := createdAt }
    ({ count := count + 1, createdAt := createdAt, failedAttempts := some 0,
       canContinue := true },
      { st2 with entry := some (newd, e) }, ops1 ++ ops2 ++ [RLOp.setEntry newd none])

/-- Run the local branch over a sequence of call times. -/
def localRun (p : RLParams) (st : RLState) : List Nat → List RLResult × RLState
  | [] => ([], st)
  | t :: ts =>
    let step := localCheck p st t
    let rest := localRun p step.2.1 ts
    (step.1 :: rest.1, rest.2)

/-- Run the Lua script over a sequence of call times. -/
def luaRun (p : RLParams) (st : RLState) : List Nat → List RLResult × RLState
  | [] => ([], st)
  | t :: ts =>
    let step := luaCheck p st t
    let rest := luaRun p step.2.1 ts
    (step.1 :: rest.1, rest.2)

theorem localCheck_fresh (p : RLParams) (st : RLState) (now : Nat)
    (hl : liveEntry st now = none) :
    (localCheck p st now).1.count = 1 ∧
    (localCheck p st now).1.createdAt = now ∧
    (localCheck p st now).1.canContinue = !decide (1 > p.maxRequests) ∧
    (localCheck p st now).2.1.entry =
      (if 1 > p.maxRequests then some (⟨1, now⟩, now + p.windowSeconds)
       else some (⟨2, now⟩, now + p.windowSeconds)) ∧
    ((localCheck p st now).2.2).head? =
      some (RLOp.setEntry ⟨1, now⟩ (some p.windowSeconds)) ∧
    (¬(1 > p.maxRequests) → (localCheck p st now).1.failedAttempts = some 0) ∧
    (¬(1 > p.maxRequests) → p.maxFaildedAttempts ≠ 0 →
      (localCheck p st now).2.1.failed =
        some ((liveFailed st now).getD 0 + 1,
          now + p.windowSeconds * p.maxFaildedAttempts * 2)) := by
  unfold localCheck
  rw [hl]
  dsimp only
  by_cases h1 : 1 > p.maxRequests
  · rw [if_pos h1]
    refine ⟨rfl, rfl, by simp [h1], ?_, ?_, ?_, ?_⟩
    · rw [if_pos h1]
      split <;> rfl
    · split <;> rfl
    · intro hc ; exact absurd h1 hc
    · intro hc ; exact absurd h1 hc
  · rw [if_neg h1]
    by_cases hm : p.maxFaildedAttempts ≠ 0
    · rw [if_pos (⟨rfl, hm⟩ : (1 = 1 ∧ p.maxFaildedAttempts ≠ 0))]
      exact ⟨rfl, rfl, by simp [h1], by rw [if_neg h1], rfl, fun _ => rfl, fun _ _ => rfl⟩
    · rw [if_neg (by simpa using hm)]
      exact ⟨rfl, rfl, by simp [h1], by rw [if_neg h1], rfl, fun _ => rfl,
        fun _ hc => absurd hc hm⟩

theorem luaCheck_fresh (p : RLParams) (st : RLState) (now : Nat)
    (hl : liveEntry st now = none) :
    (luaCheck p st now).1.count = (if 0 ≥ p.maxRequests then 0 else 1) ∧
    (luaCheck p st now).1.createdAt = now ∧
    (luaCheck p st now).1.canContinue = !decide (0 ≥ p.maxRequests) ∧
    (luaCheck p st now).2.1.entry =
      (if 0 ≥ p.maxRequests then some (⟨0, now⟩, now + p.windowSeconds)
       else some (⟨1, now⟩, now + p.windowSeconds)) ∧
    ((luaCheck p st now).2.2).head? =
      some (RLOp.setEntry ⟨0, now⟩ (some p.windowSeconds)) ∧
    (0 < p.maxRequests → (luaCheck p st now).2.1.failed = st.failed) := by
  unfold luaCheck
  rw [hl]
  dsimp only
  by_cases h1 : 0 ≥ p.maxRequests
  · rw [if_pos h1]
    refine ⟨by rw [if_pos h1], rfl, by simp [h1], ?_, ?_, ?_⟩
    · rw [if_pos h1]
      split <;> rfl
    · split <;> rfl
    · intro hc
      omega
  · rw [if_neg h1]
    rw [if_neg (by simp : ¬(0 = 1 ∧ 0 < p.maxFaildedAttempts))]
    exact ⟨by rw [if_neg h1], rfl, by simp [h1], by rw [if_neg h1], rfl, fun _ => rfl⟩

theorem localCheck_live (p : RLParams) (st : RLState) (now c ca e : Nat)
    (hst : st.entry = some (⟨c, ca⟩, e)) (hnow : now < e) :
    (localCheck p st now).1.count = c ∧
    (localCheck p st now).1.createdAt = ca ∧
    (localCheck p st now).1.canContinue = !decide (c > p.maxRequests) ∧
    (localCheck p st now).2.1.entry =
      (if c > p.maxRequests then st.entry else some (⟨c + 1, ca⟩, e)) := by
  have hl : liveEntry st now = some ⟨c, ca⟩ := by
    unfold liveEntry
    rw [hst]
    dsimp only
    rw [if_pos hnow]
  unfold localCheck
  rw [hl]
  dsimp only
  by_cases h1 : c > p.maxRequests
  · rw [if_pos h1, if_pos h1]
    exact ⟨rfl, rfl, by simp [h1], by split <;> rfl⟩
  · rw [if_neg h1, if_neg h1]
    by_cases hc1 : c = 1 ∧ p.maxFaildedAttempts ≠ 0
    · rw [if_pos hc1]
      refine ⟨rfl, rfl, by simp [h1], ?_⟩
      rw [hst]
    · rw [if_neg hc1]
      refine ⟨rfl, rfl, by simp [h1], ?_⟩
      rw [hst]

theorem luaCheck_live (p : RLParams) (st : RLState) (now c ca e : Nat)
    (hst : st.entry = some (⟨c, ca⟩, e)) (hnow : now < e) :
    (luaCheck p st now).1.count = (if c ≥ p.maxRequests then c else c + 1) ∧
    (luaCheck p st now).1.createdAt = ca ∧
    (luaCheck p st now).1.canContinue = !decide (c ≥ p.maxRequests) ∧
    (luaCheck p st now).2.1.entry =
      (if c ≥ p.maxRequests then st.entry else some (⟨c + 1, ca⟩, e)) := by
  have hl : liveEntry st now = some ⟨c, ca⟩ := by
    unfold liveEntry
    rw [hst]
    dsimp only
    rw [if_pos hnow]
  unfold luaCheck
  rw [hl]
  dsimp only
  by_cases h1 : c ≥ p.maxRequests
  · rw [if_pos h1, if_pos h1, if_pos h1]
    exact ⟨rfl, rfl, by simp [h1], by split <;> rfl⟩
  · rw [if_neg h1, if_neg h1, if_neg h1]
    by_cases hc1 : c = 1 ∧ 0 < p.maxFaildedAttempts
    · rw [if_pos hc1]
      refine ⟨rfl, rfl, by simp [h1], ?_⟩
      rw [hst]
    · rw [if_neg hc1]
      refine ⟨rfl, rfl, by simp [h1], ?_⟩
      rw [hst]

theorem localRun_allows (p : RLParams) (times : List Nat) : ∀ (st : RLState) (c ca e : Nat),
    st.entry = some (⟨c, ca⟩, e) → (∀ t ∈ times, t < e) →
    c + times.length ≤ p.maxRequests + 1 →
    (∀ r ∈ (localRun p st times).1, r.canContinue = true) ∧
    (localRun p st times).2.entry = some (⟨c + times.length, ca⟩, e) := by
  induction times with
  | nil =>
    intro st c ca e hst _ _
    exact ⟨fun r hr => absurd hr (List.not_mem_nil r), by simpa using hst⟩
  | cons t ts ih =>
    intro st c ca e hst htimes hmax
    have hnow : t < e := htimes t (List.mem_cons_self t ts)
    obtain ⟨hcount, hca, hcan, hentry⟩ := localCheck_live p st t c ca e hst hnow
    have hcle : ¬(c > p.maxRequests) := by
      simp only [List.length_cons] at hmax
      omega
    rw [if_neg hcle] at hentry
    have hih := ih (localCheck p st t).2.1 (c + 1) ca e hentry
      (fun t' ht' => htimes t' (List.mem_cons_of_mem t ht'))
      (by simp only [List.length_cons] at hmax ⊢ ; omega)
    constructor
    · intro r hr
      simp only [localRun] at hr
      rcases List.mem_cons.mp hr with hhd | htl
      · rw [hhd, hcan]
        simp [hcle]
      · exact hih.1 r htl
    · simp only [localRun, List.length_cons]
      rw [hih.2]
      have harith : c + 1 + ts.length = c + (ts.length + 1) := by omega
      rw [harith]

theorem luaRun_allows (p : RLParams) (times : List Nat) : ∀ (st : RLState) (c ca e : Nat),
    st.entry = some (⟨c, ca⟩, e) → (∀ t ∈ times, t < e) →
    c + times.length ≤ p.maxRequests →
    (∀ r ∈ (luaRun p st times).1, r.canContinue = true) ∧
    (luaRun p st times).2.entry = some (⟨c + times.length, ca⟩, e) := by
  induction times with
  | nil =>
    intro st c ca e hst _ _
    exact ⟨fun r hr => absurd hr (List.not_mem_nil r), by simpa using hst⟩
  | cons t ts ih =>
    intro st c ca e hst htimes hmax
    have hnow : t < e := htimes t (List.mem_cons_self t ts)
    obtain ⟨hcount, hca, hcan, hentry⟩ := luaCheck_live p st t c ca e hst hnow
    have hcle : ¬(c ≥ p.maxRequests) := by
      simp only [List.length_cons] at hmax
      omega
    rw [if_neg hcle] at hentry
    have hih := ih (luaCheck p st t).2.1 (c + 1) ca e hentry
      (fun t' ht' => htimes t' (List.mem_cons_of_mem t ht'))
      (by simp only [List.length_cons] at hmax ⊢ ; omega)
    constructor
    · intro r hr
      simp only [luaRun] at hr
      rcases List.mem_cons.mp hr with hhd | htl
      · rw [hhd, hcan]
        simp [hcle]
      · exact hih.1 r htl
    · simp only [luaRun, List.length_cons]
      rw [hih.2]
      have harith : c + 1 + ts.length = c + (ts.length + 1) := by omega
      rw [harith]

/-- C3 counterexample: on the Redis (Lua-script) path the first check
call of a window returns `canContinue = true` with `count = 1`, but the
record it creates holds `count = 0` (not 1) and the companion
failed-attempts counter is NOT initialized by that call. -/
theorem rateLimit_first_call_counterexample :
    (luaCheck ⟨2, 60, 3⟩ ⟨none, none⟩ 100).1.canContinue = true ∧
    (luaCheck ⟨2, 60, 3⟩ ⟨none, none⟩ 100).1.count = 1 ∧
    (luaCheck ⟨2, 60, 3⟩ ⟨none, none⟩ 100).2.1.failed = none ∧
    ((luaCheck ⟨2, 60, 3⟩ ⟨none, none⟩ 100).2.2).head? =
      some (RLOp.setEntry ⟨0, 100⟩ (some 60)) := by decide

/-- C3 amended: fixed-window semantics, split by branch.  On the local
branch the first call of a window creates `{count: 1, createdAt: now}`
with TTL `windowSeconds`, returns `canContinue = true` with count 1 and
initializes the companion failed-attempts counter; on the Redis branch
the first call returns the same result but creates the record with
count 0 and leaves the failed-attempts counter untouched.  In both
branches, after `maxRequests` allowed calls inside the window the next
call returns `canContinue = false`, and the count resets once the
window TTL has expired. -/
theorem rateLimit_window_semantics (p : RLParams) :
    (∀ st now, liveEntry st now = none → 1 ≤ p.maxRequests →
      (localCheck p st now).1.count = 1 ∧
      (localCheck p st now).1.createdAt = now ∧
      (localCheck p st now).1.canContinue = true ∧
      ((localCheck p st now).2.2).head? =
        some (RLOp.setEntry ⟨1, now⟩ (some p.windowSeconds)) ∧
      (p.maxFaildedAttempts ≠ 0 → (localCheck p st now).2.1.failed =
        some ((liveFailed st now).getD 0 + 1,
          now + p.windowSeconds * p.maxFaildedAttempts * 2))) ∧
    (∀ st now, liveEntry st now = none → 1 ≤ p.maxRequests →
      (luaCheck p st now).1.count = 1 ∧
      (luaCheck p st now).1.createdAt = now ∧
      (luaCheck p st now).1.canContinue = true ∧
      ((luaCheck p st now).2.2).head? =
        some (RLOp.setEntry ⟨0, now⟩ (some p.windowSeconds)) ∧
      (luaCheck p st now).2.1.failed = st.failed) ∧
    (∀ t0 ts tl, (∀ t ∈ ts, t < t0 + p.windowSeconds) → tl < t0 + p.windowSeconds →
      ts.length + 1 = p.maxRequests →
      (∀ r ∈ (localRun p ⟨none, none⟩ (t0 :: ts)).1, r.canContinue = true) ∧
      (localCheck p (localRun p ⟨none, none⟩ (t0 :: ts)).2 tl).1.canContinue = false) ∧
    (∀ t0 ts tl, (∀ t ∈ ts, t < t0 + p.windowSeconds) → tl < t0 + p.windowSeconds →
      ts.length + 1 = p.maxRequests →
      (∀ r ∈ (luaRun p ⟨none, none⟩ (t0 :: ts)).1, r.canContinue = true) ∧
      (luaCheck p (luaRun p ⟨none, none⟩ (t0 :: ts)).2 tl).1.canContinue = false) ∧
    (∀ st now v e, st.entry = some (v, e) → e ≤ now → 1 ≤ p.maxRequests →
      (localCheck p st now).1.count = 1 ∧
      (localCheck p st now).1.createdAt = now ∧
      (localCheck p st now).1.canContinue = true) := by
  have hfreshL : ∀ st now, liveEntry st now = none → 1 ≤ p.maxRequests →
      (localCheck p st now).1.count = 1 ∧
      (localCheck p st now).1.createdAt = now ∧
      (localCheck p st now).1.canContinue = true ∧
      ((localCheck p st now).2.2).head? =
        some (RLOp.setEntry ⟨1, now⟩ (some p.windowSeconds)) ∧
      (p.maxFaildedAttempts ≠ 0 → (localCheck p st now).2.1.failed =
        some ((liveFailed st now).getD 0 + 1,
          now + p.windowSeconds * p.maxFaildedAttempts * 2)) := by
    intro st now hl hmax
    obtain ⟨h1, h2, h3, _, h5, _, h7⟩ := localCheck_fresh p st now hl
    have hng : ¬(1 > p.maxRequests) := by omega
    exact ⟨h1, h2, by rw [h3] ; simp [hng], h5, h7 hng⟩
  refine ⟨hfreshL, ?_, ?_, ?_, ?_⟩
  · intro st now hl hmax
    obtain ⟨h1, h2, h3, _, h5, h6⟩ := luaCheck_fresh p st now hl
    have hng : ¬(0 ≥ p.maxRequests) := by omega
    exact ⟨by rw [h1] ; simp [hng], h2, by rw [h3] ; simp [hng], h5, h6 (by omega)⟩
  · intro t0 ts tl hts htl hlen
    have hl0 : liveEntry (⟨none, none⟩ : RLState) t0 = none := rfl
    obtain ⟨_, _, hcan0, hentry0, _, _, _⟩ :=
      localCheck_fresh p ⟨none, none⟩ t0 hl0
    have hng : ¬(1 > p.maxRequests) := by omega
    rw [if_neg hng] at hentry0
    have hall := localRun_allows p ts (localCheck p ⟨none, none⟩ t0).2.1 2 t0
      (t0 + p.windowSeconds) hentry0 hts (by omega)
    constructor
    · intro r hr
      simp only [localRun] at hr
      rcases List.mem_cons.mp hr with hhd | htl2
      · rw [hhd, hcan0]
        simp [hng]
      · exact hall.1 r htl2
    · have hfin : (localRun p (⟨none, none⟩ : RLState) (t0 :: ts)).2.entry =
          some (⟨2 + ts.length, t0⟩, t0 + p.windowSeconds) := by
        simp only [localRun]
        exact hall.2
      obtain ⟨_, _, hcan, _⟩ := localCheck_live p _ tl (2 + ts.length) t0
        (t0 + p.windowSeconds) hfin htl
      rw [hcan]
      simp
      omega
  · intro t0 ts tl hts htl hlen
    have hl0 : liveEntry (⟨none, none⟩ : RLState) t0 = none := rfl
    obtain ⟨_, _, hcan0, hentry0, _, _⟩ := luaCheck_fresh p ⟨none, none⟩ t0 hl0
    have hng : ¬(0 ≥ p.maxRequests) := by omega
    rw [if_neg hng] at hentry0
    have hall := luaRun_allows p ts (luaCheck p ⟨none, none⟩ t0).2.1 1 t0
      (t0 + p.windowSeconds) hentry0 hts (by omega)
    constructor
    · intro r hr
      simp only [luaRun] at hr
      rcases List.mem_cons.mp hr with hhd | htl2
      · rw [hhd, hcan0]
        simp [hng]
      · exact hall.1 r htl2
    · have hfin : (luaRun p (⟨none, none⟩ : RLState) (t0 :: ts)).2.entry =
          some (⟨1 + ts.length, t0⟩, t0 + p.windowSeconds) := by
        simp only [luaRun]
        exact hall.2
      obtain ⟨_, _, hcan, _⟩ := luaCheck_live p _ tl (1 + ts.length) t0
        (t0 + p.windowSeconds) hfin htl
      rw [hcan]
      simp
      omega
  · intro st now v e hst hexp hmax
    have hl : liveEntry st now = none := by
      unfold liveEntry
      rw [hst]
      dsimp only
      rw [if_neg (by omega)]
    obtain ⟨h1, h2, h3, _, _, _, _⟩ := localCheck_fresh p st now hl
    exact ⟨h1, h2, by rw [h3] ; simp ; omega⟩

/-- Witness for the amended C3 at `maxRequests = 2`, window 60 s:
two allowed calls then a denial. -/
theorem rateLimit_window_semantics_witness :
    (∀ r ∈ (localRun ⟨2, 60, 3⟩ ⟨none, none⟩ [100, 101]).1, r.canContinue = true) ∧
    (localCheck ⟨2, 60, 3⟩ (localRun ⟨2, 60, 3⟩ ⟨none, none⟩ [100, 101]).2 102).1.canContinue
      = false :=
  (rateLimit_window_semantics ⟨2, 60, 3⟩).2.2.1 100 [101] 102
    (by decide) (by decide) (by decide)

/-- Coupling invariant between the local branch's state and the Lua
script's state for the same call sequence: either neither has a
record, or both have records with the same window origin and expiry
and the local count is one greater than the Lua count. -/
def EntryRel (l r : RLState) : Prop :=
  (l.entry = none ∧ r.entry = none) ∨
  ∃ c ca e, l.entry = some (⟨c + 1, ca⟩, e) ∧ r.entry = some (⟨c, ca⟩, e)

theorem check_rel_of_fresh (p : RLParams) (l r : RLState) (t : Nat)
    (hll : liveEntry l t = none) (hlr : liveEntry r t = none) :
    (localCheck p l t).1.canContinue = (luaCheck p r t).1.canContinue ∧
    (localCheck p l t).1.createdAt = (luaCheck p r t).1.createdAt ∧
    ((localCheck p l t).1.canContinue = true →
      (localCheck p l t).1.count = (luaCheck p r t).1.count) ∧
    EntryRel (localCheck p l t).2.1 (luaCheck p r t).2.1 := by
  obtain ⟨lc, lca, lcan, lentry, _, _, _⟩ := localCheck_fresh p l t hll
  obtain ⟨rc, rca, rcan, rentry, _, _⟩ := luaCheck_fresh p r t hlr
  have hcanEq : (!decide (1 > p.maxRequests)) = !decide (0 ≥ p.maxRequests) := by
    by_cases hz : p.maxRequests = 0
    · simp [hz]
    · simp [show ¬(1 > p.maxRequests) from by omega,
        show ¬(0 ≥ p.maxRequests) from by omega]
  refine ⟨?_, ?_, ?_, ?_⟩
  · rw [lcan, rcan]
    exact hcanEq
  · rw [lca, rca]
  · intro hcont
    rw [lcan] at hcont
    have hmax : ¬(1 > p.maxRequests) := by simpa using hcont
    rw [lc, rc, if_neg (by omega)]
  · by_cases hm : 1 > p.maxRequests
    · exact Or.inr ⟨0, t, t + p.windowSeconds,
        by rw [lentry, if_pos hm], by rw [rentry, if_pos (by omega : 0 ≥ p.maxRequests)]⟩
    · exact Or.inr ⟨1, t, t + p.windowSeconds,
        by rw [lentry, if_neg hm], by rw [rentry, if_neg (by omega : ¬(0 ≥ p.maxRequests))]⟩

theorem check_rel (p : RLParams) (l r : RLState) (t : Nat) (h : EntryRel l r) :
    (localCheck p l t).1.canContinue = (luaCheck p r t).1.canContinue ∧
    (localCheck p l t).1.createdAt = (luaCheck p r t).1.createdAt ∧
    ((localCheck p l t).1.canContinue = true →
      (localCheck p l t).1.count = (luaCheck p r t).1.count) ∧
    EntryRel (localCheck p l t).2.1 (luaCheck p r t).2.1 := by
  rcases h with ⟨hl, hr⟩ | ⟨c, ca, e, hl, hr⟩
  · have hll : liveEntry l t = none := by unfold liveEntry ; rw [hl]
    have hlr : liveEntry r t = none := by unfold liveEntry ; rw [hr]
    exact check_rel_of_fresh p l r t hll hlr
  · by_cases ht : t < e
    · obtain ⟨lc, lca, lcan, lentry⟩ := localCheck_live p l t (c + 1) ca e hl ht
      obtain ⟨rc, rca, rcan, rentry⟩ := luaCheck_live p r t c ca e hr ht
      have hcanEq : (!decide (c + 1 > p.maxRequests)) = !decide (c ≥ p.maxRequests) := by
        by_cases hz : c ≥ p.maxRequests
        · simp [hz, show c + 1 > p.maxRequests from by omega]
        · simp [hz, show ¬(c + 1 > p.maxRequests) from by omega]
      refine ⟨?_, ?_, ?_, ?_⟩
      · rw [lcan, rcan]
        exact hcanEq
      · rw [lca, rca]
      · intro hcont
        rw [lcan] at hcont
        have hmax : ¬(c + 1 > p.maxRequests) := by simpa using hcont
        rw [lc, rc, if_neg (by omega)]
      · by_cases hm : c + 1 > p.maxRequests
        · exact Or.inr ⟨c, ca, e,
            by rw [lentry, if_pos hm, hl],
            by rw [rentry, if_pos (by omega : c ≥ p.maxRequests), hr]⟩
        · exact Or.inr ⟨c + 1, ca, e,
            by rw [lentry, if_neg hm],
            by rw [rentry, if_neg (by omega : ¬(c ≥ p.maxRequests))]⟩
    · have hll : liveEntry l t = none := by
        unfold liveEntry
        rw [hl]
        dsimp only
        rw [if_neg ht]
      have hlr : liveEntry r t = none := by
        unfold liveEntry
        rw [hr]
        dsimp only
        rw [if_neg ht]
      exact check_rel_of_fresh p l r t hll hlr

theorem run_rel (p : RLParams) (times : List Nat) : ∀ (l r : RLState), EntryRel l r →
    (localRun p l times).1.map (fun x => (x.canContinue, x.createdAt)) =
      (luaRun p r times).1.map (fun x => (x.canContinue, x.createdAt)) ∧
    (localRun p l times).1.map (fun x => if x.canContinue then some x.count else none) =
      (luaRun p r times).1.map (fun x => if x.canContinue then some x.count else none) := by
  induction times with
  | nil => intro l r _ ; exact ⟨rfl, rfl⟩
  | cons t ts ih =>
    intro l r h
    obtain ⟨hcan, hca, hcount, hrel⟩ := check_rel p l r t h
    have hih := ih (localCheck p l t).2.1 (luaCheck p r t).2.1 hrel
    constructor
    · simp only [localRun, luaRun, List.map_cons]
      rw [hih.1, hcan, hca]
    · simp only [localRun, luaRun, List.map_cons]
      rw [hih.2, hcan]
      by_cases hc : (luaCheck p r t).1.canContinue = true
      · rw [hc]
        simp only [if_pos rfl]
        rw [hcount (by rw [hcan, hc])]
      · simp only [Bool.not_eq_true] at hc
        rw [hc]
        simp

/-- C4 counterexample: with `maxRequests = 1` and two calls in the same
window, the denied second call reports `count = 2` and
`failedAttempts = 1` on the local branch but `count = 1` and
`failedAttempts = 0` on the Redis Lua branch, so the two
implementations do not produce the same result sequences. -/
theorem rateLimit_refinement_counterexample :
    (localRun ⟨1, 60, 3⟩ ⟨none, none⟩ [100, 101]).1.map
      (fun x => (x.count, x.failedAttempts, x.canContinue)) =
      [(1, some 0, true), (2, some 1, false)] ∧
    (luaRun ⟨1, 60, 3⟩ ⟨none, none⟩ [100, 101]).1.map
      (fun x => (x.count, x.failedAttempts, x.canContinue)) =
      [(1, some 0, true), (1, some 0, false)] := by decide

/-- C4 amended: the two rate-limiter implementations agree on the
observables that matter for admission — for every parameter set and
every sequence of check calls from a fresh key, the `canContinue` and
`createdAt` sequences coincide, and the reported `count` coincides on
every allowed call; they differ only in the `count` and
`failedAttempts` values reported on denied calls. -/
theorem rateLimit_refinement_amended (p : RLParams) (times : List Nat) :
    (localRun p ⟨none, none⟩ times).1.map (fun x => (x.canContinue, x.createdAt)) =
      (luaRun p ⟨none, none⟩ times).1.map (fun x => (x.canContinue, x.createdAt)) ∧
    (localRun p ⟨none, none⟩ times).1.map
        (fun x => if x.canContinue then some x.count else none) =
      (luaRun p ⟨none, none⟩ times).1.map
        (fun x => if x.canContinue then some x.count else none) :=
  run_rel p times ⟨none, none⟩ ⟨none, none⟩ (Or.inl ⟨rfl, rfl⟩)

/-! ### Session header formatter (`utils/sessions/headers.ts`,
`getSessionHeaders`, lines 38-67) -/

/-- Session types that have a `SESSION_HEADERS` row. -/
inductive HeaderSessionType
  | user | api
  deriving DecidableEq, Repr

/-- The `sub` column of `SESSION_HEADERS` (`utils/constants.ts`). -/
def sessionSubjectHeader : HeaderSessionType → String
  | .user => "X-Znx-User-Id"
  | .api => "X-Znx-Api-Id"

/-- The `session` column of `SESSION_HEADERS`. -/
def sessionStatusHeader : HeaderSessionType → String
  | .user => "X-Znx-User-Session-Status"
  | .api => "X-Znx-Api-Session-Status"

/-- Options of `getSessionHeaders`; `none` models an omitted option
(the source defaults `sessionStatus` to `"unconfirmed"` and
`expiration` to `0`).  The source function accepts no refresh token. -/
structure SessionHeadersOpts where
  sessionStatus : Option String := none
  expiration : Option Nat := none
  cookiesAccepted : Bool
  subject : String
  ty : HeaderSessionType

/-- The mapping `getSessionHeaders` returns: the per-type status and
subject headers, and an optional `Set-Cookie` value. -/
structure SessionHeadersResult where
  statusHeader : String
  statusValue : String
  subjectHeader : String
  subjectValue : String
  setCookie : Option String
  deriving DecidableEq, Repr

/-- Embedding of `getSessionHeaders` from `utils/sessions/headers.ts`:
always the status and subject headers; when cookies are accepted, ONE
combined `Set-Cookie` string
`<status>=<v>; <subject>=<v>; Max-Age=<m>; Path=/; HttpOnly; SameSite=Strict`
with `m = max(0, expiration - now)` (Nat subtraction). -/
def getSessionHeaders (o : SessionHeadersOpts) (now : Nat) : SessionHeadersResult :=
  let sessionStatus := o.sessionStatus.getD "unconfirmed"
  let expiration := o.expiration.getD 0
  let statusHeader := sessionStatusHeader o.ty
  let subjectHeader := sessionSubjectHeader o.ty
  let setCookie :=
    if o.cookiesAccepted then
      let maxAge := expiration - now
      some (statusHeader ++ "=" ++ sessionStatus ++ "; " ++ subjectHeader ++ "=" ++
        o.subject ++ "; Max-Age=" ++ toString maxAge ++ "; Path=/; HttpOnly; SameSite=Strict")
    else none
  { statusHeader := statusHeader, statusValue := sessionStatus,
    subjectHeader := subjectHeader, subjectValue := o.subject, setCookie := setCookie }

/-- C5: evaluation of `getSessionHeaders` at the repository's own test
input (an accepted-cookie user session).  The status and subject
headers are present as the claim states, but `Set-Cookie` is a single
combined string folding status and subject into one cookie line; no
separate subject cookie line, no `X-Znx-App-Token` cookie (the function
accepts no refresh token) and no `X-Znx-Cookies-Accepted` cookie are
produced, contradicting the claimed ordered list of separate cookie
lines and the repository's sibling test file and callers, which
destructure `Set-Cookie` as an array. -/
theorem getSessionHeaders_single_cookie_line :
    getSessionHeaders
      { sessionStatus := some "active", expiration := some 1700003600,
        cookiesAccepted := true, subject := "alice", ty := .user } 1700000000 =
      { statusHeader := "X-Znx-User-Session-Status", statusValue := "active",
        subjectHeader := "X-Znx-User-Id", subjectValue := "alice",
        setCookie := some ("X-Znx-User-Session-Status=active; X-Znx-User-Id=alice; " ++
          "Max-Age=3600; Path=/; HttpOnly; SameSite=Strict") } ∧
    (getSessionHeaders
      { sessionStatus := some "active", expiration := some 1700003600,
        cookiesAccepted := false, subject := "alice", ty := .user } 1700000000).setCookie
      = none := by
  constructor
  · rfl
  · rfl

/-! ### Auth guard operation order (`jwtValidationGuard`, the guard
middleware) -/

/-- Operations the guard performs, in trace order. -/
inductive GuardEvent
  | extractToken | resolveKey | verify | blocklistCheck | sessionAssign
  | rateLimitCheck | sessionActivate | respond
  deriving DecidableEq, Repr

/-- Control-flow skeleton of `jwtValidationGuard` as the trace of
operations one request triggers, indexed by the outcome of each step:
bearer extraction (guard lines 144-167), key resolution (172-185), JWT
verification (188-198), blocklist check (201-208), session assignment
via `defineLocalSession` (211), rate-limit check (214-226), and the
final session activation and freeze (228-238).  Failures respond and
stop. -/
def guardTrace (tokenOk secretOk verifyOk inBlockList rlEnabled rlDeny : Bool) :
    List GuardEvent :=
  if !tokenOk then [.extractToken, .respond]
  else
    [.extractToken, .resolveKey] ++
    (if !secretOk then [.respond]
     else [.verify] ++
      (if !verifyOk then [.respond]
       else [.blocklistCheck] ++
        (if inBlockList then [.respond]
         else [.sessionAssign] ++
          (if rlEnabled then
            [.rateLimitCheck] ++ (if rlDeny then [.respond] else [.sessionActivate])
           else [.sessionActivate]))))

/-- The five operations whose order the claim speaks about, in the
order the code actually performs them. -/
def coreEvents : List GuardEvent :=
  [.verify, .blocklistCheck, .sessionAssign, .rateLimitCheck, .sessionActivate]

/-- Boolean subsequence test. -/
def isSubseqOf : List GuardEvent → List GuardEvent → Bool
  | [], _ => true
  | _ :: _, [] => false
  | a :: as, b :: bs => if a = b then isSubseqOf as bs else isSubseqOf (a :: as) bs

/-- C6 counterexample: in a fully successful rate-limited request the
session is assigned to the context (`defineLocalSession`, guard line
211) BEFORE the rate-limit check (line 214), so the claimed order
verify → blocklist → rate-limit → session-assign does not hold. -/
theorem guard_order_counterexample :
    GuardEvent.sessionAssign ∈ guardTrace true true true false true false ∧
    GuardEvent.rateLimitCheck ∈ guardTrace true true true false true false ∧
    (guardTrace true true true false true false).indexOf GuardEvent.sessionAssign <
      (guardTrace true true true false true false).indexOf GuardEvent.rateLimitCheck := by
  decide

/-- C6 amended: within every request the guard performs its operations
in the order verify, then blocklist-check, then session assignment,
then (when enabled) the rate-limit check, then session activation —
i.e. the session is assigned before rate limiting, and the occurring
subset of these operations always respects that order; on the fully
successful path all five occur in exactly that order. -/
theorem guard_order_amended :
    (∀ tokenOk secretOk verifyOk inBlockList rlEnabled rlDeny,
      isSubseqOf
        ((guardTrace tokenOk secretOk verifyOk inBlockList rlEnabled rlDeny).filter
          (fun e => e ∈ coreEvents))
        coreEvents = true) ∧
    guardTrace true true true false true false =
      [.extractToken, .resolveKey, .verify, .blocklistCheck, .sessionAssign,
       .rateLimitCheck, .sessionActivate] := by
  constructor
  · decide
  · decide

end ZanixAuth
